import Mathlib

/-!
# Battery Resource Operating-Plan Engine: a shallow embedding

This file embeds the COP (Current Operating Plan) generation and validation
engine of `ercot_code/market_rules/business_practice_manuals/`
`ERCOT_BESS_COP_Automation.py` into Lean 4 and proves properties of it.

Modelling conventions:
* Python floats are modelled as exact rationals (`ℚ`); the source's numeric
  logic is piecewise linear, so the arithmetic carries over verbatim.
* Hourly timestamps are modelled as hours-since-epoch (`ℕ`); the source's
  `hour.hour` (hour of day) becomes `t % 24`.
* A pandas `DataFrame` of plan rows becomes a `List PlanRow`; every column
  the engine reads or writes is a field of `PlanRow`.
* Optional `DataFrame` arguments (price forecast, AS commitments) become
  `Option`-valued lookup functions keyed by timestamp; a missing row of the
  forecast (a `NaN` after the left merge) makes every numeric comparison in
  the source false and is modelled by the `none` case.
* Validator messages (display-only f-strings) are not modelled; every other
  field of a finding (hour, type, severity) is.
-/

namespace COP

/-- ERCOT resource status codes (class `ResourceStatus` in the source). -/
inductive ResourceStatus where
  | ON | OFF | ONTEST | ONREG | ONRR | ONECRS
  | OFFNS | OFFQS | OUT | STARTUP | SHUTDOWN | ONEMR
  deriving DecidableEq, Repr

/-- The internal planning mode of one hour (the `mode` column). -/
inductive Mode where
  | charge | discharge | hold | unset
  deriving DecidableEq, Repr

/-- BESS technical parameters (dataclass `BESSParameters` in the source). -/
structure BESSParameters where
  capacity_mw : ℚ
  capacity_mwh : ℚ
  efficiency : ℚ
  ramp_rate_up : ℚ
  ramp_rate_down : ℚ
  min_soc : ℚ
  max_soc : ℚ
  aux_load : ℚ
  deriving DecidableEq, Repr

/-- High Sustained Limit (property `hsl`). -/
def BESSParameters.hsl (b : BESSParameters) : ℚ := b.capacity_mw

/-- Low Sustained Limit, negative for charging (property `lsl`). -/
def BESSParameters.lsl (b : BESSParameters) : ℚ := -b.capacity_mw

/-- One row of the COP DataFrame: every column the engine reads or writes. -/
structure PlanRow where
  hour_ending : ℕ
  status : ResourceStatus
  hsl : ℚ
  lsl : ℚ
  soc_begin : ℚ
  soc_min : ℚ
  soc_max : ℚ
  target_mw : ℚ
  mode : Mode
  normal_ramp_up : ℚ
  normal_ramp_down : ℚ
  emergency_ramp_up : ℚ
  emergency_ramp_down : ℚ
  hel : ℚ
  lel : ℚ
  aux_load : ℚ
  deriving DecidableEq, Repr

/-- One hour of ancillary-service commitments: the `regulation`, `rrs` and
`ecrs` columns of the `as_commitments` DataFrame. -/
structure ASCommit where
  regulation : ℚ
  rrs : ℚ
  ecrs : ℚ
  deriving DecidableEq, Repr

/-- SOC change produced over one hour by a target power (the body of the
trajectory loop in `_calculate_soc_trajectory`): discharging removes the
target MWh, charging adds the charged MWh scaled by efficiency. -/
def socChange (efficiency target : ℚ) : ℚ :=
  if target > 0 then -target
  else if target < 0 then -target * efficiency
  else 0

/-- The trajectory recursion of `_calculate_soc_trajectory`: the first row's
`soc_begin` is the initial SOC and each later row's is the previous row's
plus the SOC change of the previous row's target. -/
def socWalk (b : BESSParameters) : ℚ → List PlanRow → List PlanRow
  | _, [] => []
  | soc, r :: rs =>
      { r with soc_begin := soc } ::
        socWalk b (soc + socChange b.efficiency r.target_mw) rs

/-- The working-bound columns set at the end of `_calculate_soc_trajectory`:
`soc_min = max(min_soc, soc_begin - hsl)` and
`soc_max = min(max_soc, soc_begin + |lsl|·efficiency)`. -/
def setWorkingBounds (b : BESSParameters) (rows : List PlanRow) : List PlanRow :=
  rows.map fun r =>
    { r with
      soc_min := max b.min_soc (r.soc_begin - b.hsl)
      soc_max := min b.max_soc (r.soc_begin + |b.lsl| * b.efficiency) }

/-- Method `_calculate_soc_trajectory`: recompute the `soc_begin` column from
the initial SOC and the target plan, then set the working bounds. -/
def calculate_soc_trajectory (b : BESSParameters) (initial_soc : Option ℚ)
    (rows : List PlanRow) : List PlanRow :=
  let init := initial_soc.getD (b.max_soc * (1 / 2))
  setWorkingBounds b (socWalk b init rows)

/-- The fixed diurnal pattern of `_generate_default_plan`: target power and
mode as a function of the hour of day. -/
def defaultTarget (b : BESSParameters) (hourOfDay : ℕ) : ℚ × Mode :=
  if hourOfDay < 6 then (b.lsl * (4 / 5), Mode.charge)
  else if hourOfDay < 10 then (0, Mode.hold)
  else if 14 ≤ hourOfDay ∧ hourOfDay < 20 then (b.hsl * (9 / 10), Mode.discharge)
  else (0, Mode.hold)

/-- A fresh plan row for one timestamp, as initialized by `generate_cop` and
`_generate_default_plan` / `_optimize_for_prices` before the per-hour loop:
status `ON`, the profile's power envelope, and placeholder values for the
columns that are assigned later. -/
def initRow (b : BESSParameters) (t : ℕ) : PlanRow :=
  { hour_ending := t
    status := ResourceStatus.ON
    hsl := b.hsl
    lsl := b.lsl
    soc_begin := b.max_soc * (1 / 2)
    soc_min := 0
    soc_max := 0
    target_mw := 0
    mode := Mode.unset
    normal_ramp_up := 0
    normal_ramp_down := 0
    emergency_ramp_up := 0
    emergency_ramp_down := 0
    hel := 0
    lel := 0
    aux_load := 0 }

/-- Method `_generate_default_plan`: the fixed diurnal pattern (charge at
night, hold in the morning, discharge over the afternoon peak), followed by
the SOC trajectory computation. -/
def generate_default_plan (b : BESSParameters) (start : ℕ) (n : ℕ) :
    List PlanRow :=
  let rows := (List.range n).map fun i =>
    let t := start + i
    let tm := defaultTarget b (t % 24)
    { initRow b t with target_mw := tm.1, mode := tm.2 }
  calculate_soc_trajectory b none rows

/-- The per-hour threshold rule of `_optimize_for_prices`. A forecast hour
that is absent after the left merge is a `NaN`, for which every comparison
in the source is false, landing in the hold branch. -/
def priceTarget (b : BESSParameters) (price : Option ℚ) : ℚ × Mode :=
  match price with
  | none => (0, Mode.hold)
  | some p =>
      if p > 80 then (b.hsl, Mode.discharge)
      else if p < 25 then (b.lsl, Mode.charge)
      else if p > 50 then (b.hsl * (1 / 2), Mode.discharge)
      else (0, Mode.hold)

/-- Method `_optimize_for_prices`: threshold-based targets from the price
forecast, followed by the SOC trajectory computation. -/
def optimize_for_prices (b : BESSParameters) (start : ℕ) (n : ℕ)
    (forecast : ℕ → Option ℚ) : List PlanRow :=
  let rows := (List.range n).map fun i =>
    let t := start + i
    let tm := priceTarget b (forecast t)
    { initRow b t with target_mw := tm.1, mode := tm.2 }
  calculate_soc_trajectory b none rows

/-- One step of the repair loop of `_ensure_soc_feasibility`, acting on the
next row's stored SOC given the (already repaired) current SOC. -/
def repairStep (b : BESSParameters) (cur next : ℚ) : ℚ :=
  let max_discharge := min b.hsl (cur - b.min_soc)
  let max_charge := min (|b.lsl| * b.efficiency) (b.max_soc - cur)
  let soc_change := next - cur
  if soc_change > max_charge then cur + max_charge
  else if soc_change < -max_discharge then cur - max_discharge
  else next

/-- The repair loop of `_ensure_soc_feasibility`: for each adjacent pair,
an infeasible charge clamps the next SOC and forces the current hour's
target to `lsl`; an infeasible discharge clamps it and forces the target to
`hsl`. The current row's SOC is never changed by the loop. -/
def repairLoop (b : BESSParameters) : PlanRow → List PlanRow → List PlanRow
  | cur, [] => [cur]
  | cur, next :: rest =>
      let max_discharge := min b.hsl (cur.soc_begin - b.min_soc)
      let max_charge := min (|b.lsl| * b.efficiency) (b.max_soc - cur.soc_begin)
      let soc_change := next.soc_begin - cur.soc_begin
      if soc_change > max_charge then
        { cur with target_mw := b.lsl } ::
          repairLoop b { next with soc_begin := cur.soc_begin + max_charge } rest
      else if soc_change < -max_discharge then
        { cur with target_mw := b.hsl } ::
          repairLoop b { next with soc_begin := cur.soc_begin - max_discharge } rest
      else cur :: repairLoop b next rest

/-- The trailing `clip(min_soc, max_soc)` of `_ensure_soc_feasibility`:
values below the lower bound become the lower bound, values above the upper
bound become the upper bound. -/
def clipSoc (b : BESSParameters) (x : ℚ) : ℚ := min (max x b.min_soc) b.max_soc

/-- Clip one row's `soc_begin` into the profile's SOC band. -/
def clipRow (b : BESSParameters) (r : PlanRow) : PlanRow :=
  { r with soc_begin := clipSoc b r.soc_begin }

/-- Method `_ensure_soc_feasibility`: the sequential adjacent-pair repair
loop followed by clipping every `soc_begin` into `[min_soc, max_soc]`. -/
def ensure_soc_feasibility (b : BESSParameters) (rows : List PlanRow) :
    List PlanRow :=
  match rows with
  | [] => []
  | r :: rs => (repairLoop b r rs).map (clipRow b)

/-- Method `_apply_as_commitments`: for each plan hour that carries a
commitment, regulation wins first (status `ONREG`, target zeroed), then RRS
(status `ONRR`, `soc_min` raised to the committed MW), then ECRS (status
`ONECRS`, `soc_min` raised to twice the committed MW). -/
def apply_as_commitments (rows : List PlanRow) (comm : ℕ → Option ASCommit) :
    List PlanRow :=
  rows.map fun r =>
    match comm r.hour_ending with
    | none => r
    | some c =>
        if c.regulation > 0 then
          { r with status := ResourceStatus.ONREG, target_mw := 0 }
        else if c.rrs > 0 then
          { r with status := ResourceStatus.ONRR
                   soc_min := max r.soc_min c.rrs }
        else if c.ecrs > 0 then
          { r with status := ResourceStatus.ONECRS
                   soc_min := max r.soc_min (c.ecrs * 2) }
        else r

/-- Method `_add_cop_fields`: static derived columns (ramp rates, emergency
limits mirroring `hsl`/`lsl`, auxiliary load). -/
def add_cop_fields (b : BESSParameters) (rows : List PlanRow) : List PlanRow :=
  rows.map fun r =>
    { r with
      normal_ramp_up := b.ramp_rate_up
      normal_ramp_down := b.ramp_rate_down
      emergency_ramp_up := b.ramp_rate_up * (3 / 2)
      emergency_ramp_down := b.ramp_rate_down * (3 / 2)
      hel := r.hsl
      lel := r.lsl
      aux_load := b.aux_load }

/-- The base plan produced by `generate_cop` before the AS overlay and the
feasibility repair: the default diurnal plan when no forecast is supplied,
the price-optimized plan otherwise. -/
def basePlan (b : BESSParameters) (start : ℕ) (days : ℕ)
    (forecast : Option (ℕ → Option ℚ)) : List PlanRow :=
  match forecast with
  | none => generate_default_plan b start (days * 24)
  | some f => optimize_for_prices b start (days * 24) f

/-- Method `COPGenerator.generate_cop`: base plan, then the AS commitment
overlay when commitments are supplied, then the feasibility repair, then the
static COP fields. The source performs no validation of the profile and has
no failure path: it returns a plan for every input. -/
def generate_cop (b : BESSParameters) (start : ℕ) (days : ℕ)
    (forecast : Option (ℕ → Option ℚ)) (comm : Option (ℕ → Option ASCommit)) :
    List PlanRow :=
  let cop := basePlan b start days forecast
  let cop := match comm with
    | none => cop
    | some c => apply_as_commitments cop c
  let cop := ensure_soc_feasibility b cop
  add_cop_fields b cop

/-- Validation finding types (the `type` keys of the findings produced by
`COPValidator`). -/
inductive FindingKind where
  | SOC_INFEASIBLE_CHARGE | SOC_INFEASIBLE_DISCHARGE
  | SOC_BELOW_MIN | SOC_ABOVE_MAX
  | SOC_MIN_INCONSISTENT | SOC_MAX_INCONSISTENT
  | RAMP_RATE_EXCEEDED
  | INSUFFICIENT_SOC_FOR_RRS | INSUFFICIENT_SOC_FOR_ECRS
  | MISSING_FIELDS | NULL_VALUES
  | INSUFFICIENT_HORIZON
  deriving DecidableEq, Repr

/-- Finding severities. -/
inductive Severity where
  | ERROR | WARNING
  deriving DecidableEq, Repr

/-- One validation finding: the `hour` key (a loop index or a timestamp,
absent for plan-level findings), the `type` key and the `severity` key. The
display-only `message` f-string is not modelled. -/
structure Finding where
  hour : Option ℕ
  kind : FindingKind
  severity : Severity
  deriving DecidableEq, Repr

/-- The adjacent-pair loop of `_validate_soc_feasibility`, carrying the
positional index `i`. The bounds are computed from the row's own `hsl`,
`lsl`, `soc_min` and `soc_max` columns (not from the profile's `min_soc` /
`max_soc`), with a 0.01 MWh tolerance. -/
def socFeasAux (efficiency : ℚ) : ℕ → List PlanRow → List Finding
  | _, [] => []
  | _, [_] => []
  | i, cur :: next :: rest =>
      let max_discharge := min cur.hsl (cur.soc_begin - cur.soc_min)
      let max_charge := min (|cur.lsl| * efficiency) (cur.soc_max - cur.soc_begin)
      let soc_change := next.soc_begin - cur.soc_begin
      (if soc_change > max_charge + 1 / 100 then
        [⟨some i, FindingKind.SOC_INFEASIBLE_CHARGE, Severity.ERROR⟩]
      else if soc_change < -(max_discharge + 1 / 100) then
        [⟨some i, FindingKind.SOC_INFEASIBLE_DISCHARGE, Severity.ERROR⟩]
      else []) ++ socFeasAux efficiency (i + 1) (next :: rest)

/-- Method `_validate_soc_feasibility` (errors only). -/
def validate_soc_feasibility (b : BESSParameters) (cop : List PlanRow) :
    List Finding :=
  socFeasAux b.efficiency 0 cop

/-- Per-row errors of `_validate_soc_bounds`: `soc_begin` outside the
profile's absolute band. The `hour` key of these findings is the DataFrame
label, i.e. the row's timestamp. -/
def socBoundsErrors (b : BESSParameters) (cop : List PlanRow) : List Finding :=
  cop.flatMap fun r =>
    if r.soc_begin < b.min_soc then
      [⟨some r.hour_ending, FindingKind.SOC_BELOW_MIN, Severity.ERROR⟩]
    else if r.soc_begin > b.max_soc then
      [⟨some r.hour_ending, FindingKind.SOC_ABOVE_MAX, Severity.ERROR⟩]
    else []

/-- Per-row warnings of `_validate_soc_bounds`: the stored working bracket
disagreeing with `soc_begin`. -/
def socBoundsWarnings (cop : List PlanRow) : List Finding :=
  cop.flatMap fun r =>
    (if r.soc_min > r.soc_begin then
      [⟨some r.hour_ending, FindingKind.SOC_MIN_INCONSISTENT, Severity.WARNING⟩]
    else []) ++
    (if r.soc_max < r.soc_begin then
      [⟨some r.hour_ending, FindingKind.SOC_MAX_INCONSISTENT, Severity.WARNING⟩]
    else [])

/-- The adjacent-pair loop of `_validate_ramp_rates` (warnings only): hours
with a status change are skipped; otherwise the absolute target change is
compared against the best ramp rate over an hour with 5% tolerance. -/
def rampAux : ℕ → List PlanRow → List Finding
  | _, [] => []
  | _, [_] => []
  | i, cur :: next :: rest =>
      (if cur.status ≠ next.status then []
      else
        let mw_change := |next.target_mw - cur.target_mw|
        let max_ramp := max cur.normal_ramp_up cur.normal_ramp_down * 60
        if mw_change > max_ramp * (21 / 20) then
          [⟨some i, FindingKind.RAMP_RATE_EXCEEDED, Severity.WARNING⟩]
        else []) ++ rampAux (i + 1) (next :: rest)

/-- Method `_validate_ramp_rates` (warnings only). -/
def validate_ramp_rates (cop : List PlanRow) : List Finding :=
  rampAux 0 cop

/-- Method `_validate_as_requirements` (warnings only): an `ONRR` hour needs
one hour of energy at `hsl`, an `ONECRS` hour two. -/
def validate_as_requirements (cop : List PlanRow) : List Finding :=
  cop.flatMap fun r =>
    if r.status = ResourceStatus.ONRR then
      if r.soc_begin < r.hsl * 1 then
        [⟨some r.hour_ending, FindingKind.INSUFFICIENT_SOC_FOR_RRS,
          Severity.WARNING⟩]
      else []
    else if r.status = ResourceStatus.ONECRS then
      if r.soc_begin < r.hsl * 2 then
        [⟨some r.hour_ending, FindingKind.INSUFFICIENT_SOC_FOR_ECRS,
          Severity.WARNING⟩]
      else []
    else []

/-- Method `_validate_data_completeness`. In the typed embedding every
required column exists on every row and holds a rational (there is no
`NaN`/null value), so neither `MISSING_FIELDS` nor `NULL_VALUES` can fire:
the check contributes no findings. -/
def validate_data_completeness (_ : List PlanRow) : List Finding := []

/-- Method `_validate_timeline_requirements` (warning only): fewer than 168
hours. -/
def validate_timeline_requirements (cop : List PlanRow) : List Finding :=
  if cop.length < 168 then
    [⟨none, FindingKind.INSUFFICIENT_HORIZON, Severity.WARNING⟩]
  else []

/-- The mutable instance fields of `COPValidator`
(`validation_errors` / `validation_warnings`). -/
structure ValidatorState where
  validation_errors : List Finding
  validation_warnings : List Finding
  deriving DecidableEq, Repr

/-- The state of a freshly constructed `COPValidator` (its `__init__`). -/
def initValidator : ValidatorState := ⟨[], []⟩

/-- The `validate` result dictionary (the `summary` string is display-only
and not modelled). -/
structure Report where
  valid : Bool
  errors : List Finding
  warnings : List Finding
  error_count : ℕ
  warning_count : ℕ
  deriving DecidableEq, Repr

/-- Method `COPValidator.validate`: reset both instance lists, run the six
checks in source order appending errors and warnings as they fire, and
compile the result dictionary; `valid` holds exactly when the error list is
empty. Returns the updated instance state together with the report. -/
def validate (s : ValidatorState) (b : BESSParameters) (cop : List PlanRow) :
    ValidatorState × Report :=
  let _ := s
  let errors :=
    validate_soc_feasibility b cop ++ socBoundsErrors b cop ++
      validate_data_completeness cop
  let warnings :=
    socBoundsWarnings cop ++ validate_ramp_rates cop ++
      validate_as_requirements cop ++ validate_timeline_requirements cop
  (⟨errors, warnings⟩,
    { valid := errors.isEmpty
      errors := errors
      warnings := warnings
      error_count := errors.length
      warning_count := warnings.length })

/-! ## Derived predicates and concrete instances used by the theorems -/

/-- The fields of a plan row that the feasibility repair is not allowed to
touch: everything except `soc_begin` and `target_mw`. -/
def FrameEq (a r : PlanRow) : Prop :=
  r.hour_ending = a.hour_ending ∧ r.status = a.status ∧ r.hsl = a.hsl ∧
    r.lsl = a.lsl ∧ r.soc_min = a.soc_min ∧ r.soc_max = a.soc_max ∧
    r.mode = a.mode ∧ r.normal_ramp_up = a.normal_ramp_up ∧
    r.normal_ramp_down = a.normal_ramp_down ∧
    r.emergency_ramp_up = a.emergency_ramp_up ∧
    r.emergency_ramp_down = a.emergency_ramp_down ∧ r.hel = a.hel ∧
    r.lel = a.lel ∧ r.aux_load = a.aux_load

/-- The finding types that the validator only ever produces at `WARNING`
severity. -/
def warningKinds : List FindingKind :=
  [FindingKind.RAMP_RATE_EXCEEDED, FindingKind.INSUFFICIENT_SOC_FOR_RRS,
   FindingKind.INSUFFICIENT_SOC_FOR_ECRS, FindingKind.SOC_MIN_INCONSISTENT,
   FindingKind.SOC_MAX_INCONSISTENT, FindingKind.INSUFFICIENT_HORIZON]

/-- The feasibility relation the repair loop enforces between two adjacent
begin-of-hour SOC values: the transition stays within the maximum charge and
maximum discharge computed from the profile bounds. -/
def InvQ (b : BESSParameters) (x y : ℚ) : Prop :=
  y - x ≤ min (|b.lsl| * b.efficiency) (b.max_soc - x) ∧
    -(min b.hsl (x - b.min_soc)) ≤ y - x

/-- Modelled from the spec: the maximum discharge bound the claim asserts
the validator uses, `min(hsl, socBegin − profile.minSOC)` — the generator's
repair formula, with the profile's `minSOC`. Kept separate from the code's
validator (which uses the row's stored `soc_min`) for comparison. -/
def specMaxDischarge (b : BESSParameters) (cur : PlanRow) : ℚ :=
  min cur.hsl (cur.soc_begin - b.min_soc)

/-- Modelled from the spec: the maximum charge bound the claim asserts the
validator uses, `min(|lsl|·efficiency, profile.maxSOC − socBegin)`. -/
def specMaxCharge (b : BESSParameters) (cur : PlanRow) : ℚ :=
  min (|cur.lsl| * b.efficiency) (b.max_soc - cur.soc_begin)

/-- The actual charge-infeasibility condition of
`_validate_soc_feasibility`, computed from the row's stored working
bounds. -/
def chargeViol (E : ℚ) (cur next : PlanRow) : Prop :=
  next.soc_begin - cur.soc_begin >
    min (|cur.lsl| * E) (cur.soc_max - cur.soc_begin) + 1 / 100

/-- The actual discharge-infeasibility condition of
`_validate_soc_feasibility`, computed from the row's stored working
bounds. -/
def dischargeViol (cur next : PlanRow) : Prop :=
  next.soc_begin - cur.soc_begin <
    -(min cur.hsl (cur.soc_begin - cur.soc_min) + 1 / 100)

/-- A 10 MW / 20 MWh lossless battery with the full SOC band available:
the profile of the spec's concrete boundary-repair example. -/
def b6 : BESSParameters :=
  { capacity_mw := 10, capacity_mwh := 20, efficiency := 1,
    ramp_rate_up := 5, ramp_rate_down := 5, min_soc := 0, max_soc := 20,
    aux_load := 0 }

/-- A valid profile (positive capacity, `minSOC < maxSOC`, efficiency one)
whose usable band sits in the upper tenth of the battery: the default
plan's 50% starting SOC lies below `min_soc`, which exposes the validator's
use of stale pre-repair working bounds. -/
def b1 : BESSParameters :=
  { capacity_mw := 1, capacity_mwh := 2, efficiency := 1,
    ramp_rate_up := 1, ramp_rate_down := 1, min_soc := 18, max_soc := 20,
    aux_load := 0 }

/-- A non-physical profile: zero capacity and `min_soc > max_soc`. -/
def bBad : BESSParameters :=
  { capacity_mw := 0, capacity_mwh := 2, efficiency := 1,
    ramp_rate_up := 1, ramp_rate_down := 1, min_soc := 5, max_soc := 3,
    aux_load := 0 }

/-- A plan row over profile `b` with a given timestamp, begin-of-hour SOC
and target power. -/
def sampleRow (b : BESSParameters) (t : ℕ) (soc tgt : ℚ) : PlanRow :=
  { initRow b t with soc_begin := soc, target_mw := tgt }

/-- A commitment schedule with 5 MW of regulation in hour 1 only. -/
def commTest : ℕ → Option ASCommit := fun t =>
  if t = 1 then some ⟨5, 0, 0⟩ else none

/-- A commitment schedule with all three products non-zero in hour 3. -/
def commAll : ℕ → Option ASCommit := fun t =>
  if t = 3 then some ⟨1, 2, 3⟩ else none

/-- A plan row carrying a stored `soc_min` strictly above the profile
minimum, separating the row-based and profile-based discharge bounds. -/
def rowC3a : PlanRow :=
  { sampleRow b6 0 10 0 with soc_min := 5, soc_max := 20 }

/-- The successor row of `rowC3a`, 6 MWh lower. -/
def rowC3b : PlanRow :=
  { sampleRow b6 1 4 0 with soc_min := 0, soc_max := 20 }

/-- A two-hour plan on which the row-based and profile-based feasibility
bounds disagree. -/
def copC3 : List PlanRow := [rowC3a, rowC3b]

/-- Sample rows for witness statements. -/
def demoRows : List PlanRow :=
  [sampleRow b6 0 (-50) 0, sampleRow b6 1 100 0, sampleRow b6 2 3 0,
   sampleRow b6 3 (-7) 2, sampleRow b6 4 19 5, sampleRow b6 5 28 0]

/-! ## Basic structural lemmas -/

theorem socWalk_length (b : BESSParameters) :
    ∀ (soc : ℚ) (rows : List PlanRow), (socWalk b soc rows).length = rows.length := by
  intro soc rows
  induction rows generalizing soc with
  | nil => rfl
  | cons r rs ih => simp [socWalk, ih]

theorem repairLoop_length (b : BESSParameters) :
    ∀ (rs : List PlanRow) (cur : PlanRow),
      (repairLoop b cur rs).length = rs.length + 1 := by
  intro rs
  induction rs with
  | nil => intro cur; rfl
  | cons next rest ih =>
      intro cur
      rw [repairLoop]
      split_ifs <;> simp [ih]

theorem ensure_soc_feasibility_length (b : BESSParameters) (rows : List PlanRow) :
    (ensure_soc_feasibility b rows).length = rows.length := by
  cases rows with
  | nil => rfl
  | cons r rs => simp [ensure_soc_feasibility, repairLoop_length]

theorem basePlan_length (b : BESSParameters) (start days : ℕ)
    (forecast : Option (ℕ → Option ℚ)) :
    (basePlan b start days forecast).length = days * 24 := by
  cases forecast <;>
    simp [basePlan, generate_default_plan, optimize_for_prices,
      calculate_soc_trajectory, setWorkingBounds, socWalk_length]

/-! ## C5: `generate` performs no profile validation -/

/-- C5, amended: the source's `generate_cop` never fails. It performs no
validation of the profile at all — there is no `InvalidProfile` error
anywhere in the source — and returns a plan of `days·24` hours for every
profile, start time, horizon, forecast and commitment set, including
profiles with `capacityMW ≤ 0` or `minSOC ≥ maxSOC`. -/
theorem C5_generate_never_fails (b : BESSParameters) (start days : ℕ)
    (forecast : Option (ℕ → Option ℚ)) (comm : Option (ℕ → Option ASCommit)) :
    (generate_cop b start days forecast comm).length = days * 24 := by
  have hbase := basePlan_length b start days forecast
  cases comm with
  | none =>
      simp only [generate_cop, add_cop_fields, List.length_map,
        ensure_soc_feasibility_length]
      exact hbase
  | some c =>
      simp only [generate_cop, add_cop_fields, List.length_map,
        ensure_soc_feasibility_length, apply_as_commitments]
      exact hbase

/-- C5, counterexample to the claim as stated: for the profile `bBad`
(`capacityMW = 0 ≤ 0` and `minSOC = 5 ≥ 3 = maxSOC`) the generator does not
fail with an `InvalidProfile` error — it returns a 24-hour plan. -/
theorem C5_counterexample :
    bBad.capacity_mw ≤ 0 ∧ bBad.max_soc ≤ bBad.min_soc ∧
      (generate_cop bBad 0 1 none none).length = 1 * 24 := by
  refine ⟨by norm_num [bBad], by norm_num [bBad], ?_⟩
  with_unfolding_all rfl

/-! ## C4: the AS overlay runs before the feasibility repair -/

/-- C4, amended: in `generate_cop` the ancillary-commitment overlay is
applied to the base plan first and the feasibility repair runs afterwards
(followed by the static COP fields): the returned plan is
`AddFields(EnforceFeasibility(ApplyCommitments(basePlan, comm)))`, not
`ApplyCommitments(EnforceFeasibility(basePlan), comm)`. -/
theorem C4_overlay_then_repair (b : BESSParameters) (start days : ℕ)
    (forecast : Option (ℕ → Option ℚ)) (c : ℕ → Option ASCommit) :
    generate_cop b start days forecast (some c) =
      add_cop_fields b
        (ensure_soc_feasibility b
          (apply_as_commitments (basePlan b start days forecast) c)) := rfl

/-- C4, counterexample to the claimed order: over profile `b6` with a
regulation commitment in hour 1, the plan returned by `generate_cop`
differs from `ApplyCommitments(EnforceFeasibility(basePlan), comm)` (with
the static fields added): the repair overwrites the overlay's zeroed
target in hour 1 with `lsl = -10`, which the claimed order would zero
again. -/
theorem C4_counterexample :
    generate_cop b6 0 1 none (some commTest) ≠
      add_cop_fields b6
        (apply_as_commitments (ensure_soc_feasibility b6 (basePlan b6 0 1 none))
          commTest) := by
  apply of_decide_eq_true
  with_unfolding_all rfl

/-! ## C9: the validator resets its accumulators on every call -/

theorem validate_drops_state (s t : ValidatorState) (b : BESSParameters)
    (cop : List PlanRow) : validate s b cop = validate t b cop := rfl

/-- C9, amended: `validate` stores its findings in instance fields but
resets both lists at the start of every call, so the report of a second
call on the same validator instance is exactly the report a fresh validator
would produce — no finding leaks from one call into the next. -/
theorem C9_no_cross_call_leakage (s : ValidatorState) (b : BESSParameters)
    (p1 p2 : List PlanRow) :
    (validate (validate s b p1).1 b p2).2 = (validate initValidator b p2).2 :=
  congrArg Prod.snd (validate_drops_state _ _ b p2)

/-- C9, counterexample to the claim as stated: there is no profile, pair of
plans and starting instance state for which the second of two successive
`validate` calls reports anything different from a fresh validator — in
particular it never "still contains the first call's findings". -/
theorem C9_counterexample :
    ¬ ∃ (b : BESSParameters) (p1 p2 : List PlanRow) (s : ValidatorState),
        (validate (validate s b p1).1 b p2).2 ≠ (validate initValidator b p2).2 := by
  rintro ⟨b, p1, p2, s, h⟩
  exact h (congrArg Prod.snd (validate_drops_state _ _ b p2))

/-! ## C6: the concrete boundary repair -/

/-- C6: on the profile `{capacityMW=10, capacityMWh=20, efficiency=1,
minSOC=0, maxSOC=20}`, repairing the SOC sequence `[10, 19, 28]` yields
`[10, 19, 20]`: the hour-0 transition (delta 9 ≤ maxCharge 10) is left
alone, the hour-1 transition (delta 9 > maxCharge 1) is clamped with the
second hour's target forced to `lsl = -10`, and the first hour's SOC and
target are unchanged — whatever the input targets were. -/
theorem C6_boundary_repair (t0 t1 t2 : ℚ) :
    ensure_soc_feasibility b6
        [sampleRow b6 0 10 t0, sampleRow b6 1 19 t1, sampleRow b6 2 28 t2] =
      [sampleRow b6 0 10 t0, sampleRow b6 1 19 (-10), sampleRow b6 2 20 t2] := by
  with_unfolding_all rfl

/-! ## C7: severity bookkeeping of the validator -/

theorem socFeasAux_mem (E : ℚ) :
    ∀ (l : List PlanRow) (i : ℕ) (f : Finding), f ∈ socFeasAux E i l →
      f.severity = Severity.ERROR ∧
        (f.kind = FindingKind.SOC_INFEASIBLE_CHARGE ∨
          f.kind = FindingKind.SOC_INFEASIBLE_DISCHARGE) := by
  intro l
  induction l with
  | nil => intro i f h; simp [socFeasAux] at h
  | cons cur rest ih =>
      intro i f h
      cases rest with
      | nil => simp [socFeasAux] at h
      | cons next rest2 =>
          rw [socFeasAux] at h
          rcases List.mem_append.1 h with h | h
          · split_ifs at h <;> simp at h <;> subst h <;> simp
          · exact ih (i + 1) f h

theorem socBoundsErrors_mem (b : BESSParameters) (cop : List PlanRow)
    (f : Finding) (h : f ∈ socBoundsErrors b cop) :
    f.severity = Severity.ERROR ∧
      (f.kind = FindingKind.SOC_BELOW_MIN ∨ f.kind = FindingKind.SOC_ABOVE_MAX) := by
  rcases List.mem_flatMap.1 h with ⟨r, -, hf⟩
  split_ifs at hf <;> simp at hf <;> subst hf <;> simp

theorem socBoundsWarnings_mem (cop : List PlanRow) (f : Finding)
    (h : f ∈ socBoundsWarnings cop) :
    f.severity = Severity.WARNING ∧
      (f.kind = FindingKind.SOC_MIN_INCONSISTENT ∨
        f.kind = FindingKind.SOC_MAX_INCONSISTENT) := by
  rcases List.mem_flatMap.1 h with ⟨r, -, hf⟩
  rcases List.mem_append.1 hf with hf | hf <;>
    split_ifs at hf <;> simp at hf <;> subst hf <;> simp

theorem rampAux_mem :
    ∀ (l : List PlanRow) (i : ℕ) (f : Finding), f ∈ rampAux i l →
      f.severity = Severity.WARNING ∧ f.kind = FindingKind.RAMP_RATE_EXCEEDED := by
  intro l
  induction l with
  | nil => intro i f h; simp [rampAux] at h
  | cons cur rest ih =>
      intro i f h
      cases rest with
      | nil => simp [rampAux] at h
      | cons next rest2 =>
          rw [rampAux] at h
          rcases List.mem_append.1 h with h | h
          · split_ifs at h <;> simp_all
          · exact ih (i + 1) f h

theorem asRequirements_mem (cop : List PlanRow) (f : Finding)
    (h : f ∈ validate_as_requirements cop) :
    f.severity = Severity.WARNING ∧
      (f.kind = FindingKind.INSUFFICIENT_SOC_FOR_RRS ∨
        f.kind = FindingKind.INSUFFICIENT_SOC_FOR_ECRS) := by
  rcases List.mem_flatMap.1 h with ⟨r, -, hf⟩
  split_ifs at hf <;> simp at hf <;> subst hf <;> simp

theorem timeline_mem (cop : List PlanRow) (f : Finding)
    (h : f ∈ validate_timeline_requirements cop) :
    f.severity = Severity.WARNING ∧ f.kind = FindingKind.INSUFFICIENT_HORIZON := by
  unfold validate_timeline_requirements at h
  split_ifs at h
  · simp at h
    subst h
    simp
  · simp at h

/-- C7: `valid` is true exactly when the error list is empty; every finding
on the error list has `ERROR` severity and is none of the six warning-only
types, and every finding on the warning list has `WARNING` severity and one
of the six warning-only types — so warnings can never change the `valid`
flag, whatever their number. -/
theorem C7_valid_iff_no_errors (s : ValidatorState) (b : BESSParameters)
    (cop : List PlanRow) :
    ((validate s b cop).2.valid = true ↔ (validate s b cop).2.errors = []) ∧
      (∀ f ∈ (validate s b cop).2.errors,
        f.severity = Severity.ERROR ∧ f.kind ∉ warningKinds) ∧
      (∀ f ∈ (validate s b cop).2.warnings,
        f.severity = Severity.WARNING ∧ f.kind ∈ warningKinds) := by
  refine ⟨List.isEmpty_iff, ?_, ?_⟩
  · intro f hf
    simp only [validate, validate_soc_feasibility, validate_data_completeness,
      List.append_nil, List.mem_append] at hf
    rcases hf with hf | hf
    · obtain ⟨hs, hk | hk⟩ := socFeasAux_mem b.efficiency cop 0 f hf <;>
        exact ⟨hs, by rw [hk]; decide⟩
    · obtain ⟨hs, hk | hk⟩ := socBoundsErrors_mem b cop f hf <;>
        exact ⟨hs, by rw [hk]; decide⟩
  · intro f hf
    simp only [validate, validate_ramp_rates, List.mem_append] at hf
    rcases hf with ((hf | hf) | hf) | hf
    · obtain ⟨hs, hk | hk⟩ := socBoundsWarnings_mem cop f hf <;>
        exact ⟨hs, by rw [hk]; decide⟩
    · obtain ⟨hs, hk⟩ := rampAux_mem cop 0 f hf
      exact ⟨hs, by rw [hk]; decide⟩
    · obtain ⟨hs, hk | hk⟩ := asRequirements_mem cop f hf <;>
        exact ⟨hs, by rw [hk]; decide⟩
    · obtain ⟨hs, hk⟩ := timeline_mem cop f hf
      exact ⟨hs, by rw [hk]; decide⟩

/-- C7 witness: the characterization instantiated on a concrete plan with
an error, a warning and a non-trivial report. -/
theorem C7_witness :
    ((validate initValidator b6 demoRows).2.valid = true ↔
        (validate initValidator b6 demoRows).2.errors = []) ∧
      (∀ f ∈ (validate initValidator b6 demoRows).2.errors,
        f.severity = Severity.ERROR ∧ f.kind ∉ warningKinds) ∧
      (∀ f ∈ (validate initValidator b6 demoRows).2.warnings,
        f.severity = Severity.WARNING ∧ f.kind ∈ warningKinds) :=
  C7_valid_iff_no_errors initValidator b6 demoRows

/-! ## C8: semantics of the ancillary-service overlay -/

/-- C8: for a plan hour carrying a commitment, regulation (if positive)
wins outright — status `ONREG` and target zeroed, regardless of the other
products; otherwise positive RRS sets status `ONRR` and raises `soc_min` to
the committed MW; otherwise positive ECRS sets status `ONECRS` and raises
`soc_min` to twice the committed MW; with nothing positive the row is
untouched. Exactly one overlay applies, in the priority order
regulation > RRS > ECRS. -/
theorem C8_as_overlay (cop : List PlanRow) (comm : ℕ → Option ASCommit)
    (i : ℕ) (r : PlanRow) (c : ASCommit)
    (hr : cop[i]? = some r) (hc : comm r.hour_ending = some c) :
    (0 < c.regulation →
      (apply_as_commitments cop comm)[i]? =
        some { r with status := ResourceStatus.ONREG, target_mw := 0 }) ∧
    (c.regulation ≤ 0 → 0 < c.rrs →
      (apply_as_commitments cop comm)[i]? =
        some { r with status := ResourceStatus.ONRR,
                      soc_min := max r.soc_min c.rrs }) ∧
    (c.regulation ≤ 0 → c.rrs ≤ 0 → 0 < c.ecrs →
      (apply_as_commitments cop comm)[i]? =
        some { r with status := ResourceStatus.ONECRS,
                      soc_min := max r.soc_min (c.ecrs * 2) }) ∧
    (c.regulation ≤ 0 → c.rrs ≤ 0 → c.ecrs ≤ 0 →
      (apply_as_commitments cop comm)[i]? = some r) := by
  have hmap : (apply_as_commitments cop comm)[i]? =
      (cop[i]?).map (fun r =>
        match comm r.hour_ending with
        | none => r
        | some c =>
            if c.regulation > 0 then
              { r with status := ResourceStatus.ONREG, target_mw := 0 }
            else if c.rrs > 0 then
              { r with status := ResourceStatus.ONRR
                       soc_min := max r.soc_min c.rrs }
            else if c.ecrs > 0 then
              { r with status := ResourceStatus.ONECRS
                       soc_min := max r.soc_min (c.ecrs * 2) }
            else r) := List.getElem?_map ..
  rw [hmap, hr, Option.map_some', hc]
  refine ⟨fun h1 => ?_, fun h1 h2 => ?_, fun h1 h2 h3 => ?_, fun h1 h2 h3 => ?_⟩
  · simp only [if_pos h1]
  · simp only [if_neg (not_lt.2 h1), if_pos h2]
  · simp only [if_neg (not_lt.2 h1), if_neg (not_lt.2 h2), if_pos h3]
  · simp only [if_neg (not_lt.2 h1), if_neg (not_lt.2 h2), if_neg (not_lt.2 h3)]

/-- C8 witness: an hour committed to all three products at once takes only
the regulation overlay. -/
theorem C8_witness :
    (apply_as_commitments [sampleRow b6 3 10 5] commAll)[0]? =
      some { sampleRow b6 3 10 5 with
             status := ResourceStatus.ONREG, target_mw := 0 } :=
  (C8_as_overlay [sampleRow b6 3 10 5] commAll 0 (sampleRow b6 3 10 5)
    ⟨1, 2, 3⟩ rfl (by with_unfolding_all rfl)).1 (by norm_num)

/-! ## C10: the frame of the feasibility repair -/

theorem frameEq_refl (a : PlanRow) : FrameEq a a := by
  simp [FrameEq]

theorem frameEq_set_soc (a : PlanRow) (x : ℚ) :
    FrameEq a { a with soc_begin := x } := by
  simp [FrameEq]

theorem frameEq_set_target (a r : PlanRow) (h : FrameEq a r) (t : ℚ) :
    FrameEq a { r with target_mw := t } := by
  simpa [FrameEq] using h

theorem frameEq_clip (a r : PlanRow) (h : FrameEq a r) (b : BESSParameters) :
    FrameEq a (clipRow b r) := by
  simpa [FrameEq, clipRow] using h

theorem repairLoop_cons_eq (b : BESSParameters) (cur next : PlanRow)
    (rest : List PlanRow) :
    ∃ t, repairLoop b cur (next :: rest) =
      { cur with target_mw := t } ::
        repairLoop b
          { next with soc_begin := repairStep b cur.soc_begin next.soc_begin }
          rest := by
  simp only [repairLoop, repairStep]
  split_ifs
  · exact ⟨b.lsl, rfl⟩
  · exact ⟨b.hsl, rfl⟩
  · exact ⟨cur.target_mw, rfl⟩

theorem repairLoop_frame (b : BESSParameters) :
    ∀ (rs : List PlanRow) (cur a : PlanRow), FrameEq a cur →
      List.Forall₂ FrameEq (a :: rs) (repairLoop b cur rs) := by
  intro rs
  induction rs with
  | nil =>
      intro cur a h
      exact List.Forall₂.cons h List.Forall₂.nil
  | cons next rest ih =>
      intro cur a h
      obtain ⟨t, heq⟩ := repairLoop_cons_eq b cur next rest
      rw [heq]
      exact List.Forall₂.cons (frameEq_set_target a cur h t)
        (ih _ next (frameEq_set_soc next _))

theorem repairLoop_head_soc (b : BESSParameters) (rs : List PlanRow)
    (cur : PlanRow) :
    ∃ u us, repairLoop b cur rs = u :: us ∧ u.soc_begin = cur.soc_begin := by
  cases rs with
  | nil => exact ⟨cur, [], rfl, rfl⟩
  | cons next rest =>
      obtain ⟨t, heq⟩ := repairLoop_cons_eq b cur next rest
      exact ⟨_, _, heq, rfl⟩

/-- C10: the feasibility repair changes at most `soc_begin` and
`target_mw`. The number of hours and their order are preserved, every other
field of every hour is identical before and after, and the first hour's
`soc_begin` changes only through the final clip into `[minSOC, maxSOC]`. -/
theorem C10_repair_frame (b : BESSParameters) (rows : List PlanRow) :
    (ensure_soc_feasibility b rows).length = rows.length ∧
      List.Forall₂ FrameEq rows (ensure_soc_feasibility b rows) ∧
      (ensure_soc_feasibility b rows).head?.map PlanRow.soc_begin =
        rows.head?.map (fun r => clipSoc b r.soc_begin) := by
  refine ⟨ensure_soc_feasibility_length b rows, ?_, ?_⟩
  · cases rows with
    | nil => simp [ensure_soc_feasibility]
    | cons r rs =>
        have h := repairLoop_frame b rs r r (frameEq_refl r)
        show List.Forall₂ FrameEq (r :: rs) ((repairLoop b r rs).map (clipRow b))
        rw [List.forall₂_map_right_iff]
        exact h.imp (fun a c hac => frameEq_clip a c hac b)
  · cases rows with
    | nil => rfl
    | cons r rs =>
        obtain ⟨u, us, heq, hsoc⟩ := repairLoop_head_soc b rs r
        show ((repairLoop b r rs).map (clipRow b)).head?.map PlanRow.soc_begin = _
        rw [heq]
        simp [clipRow, hsoc]

/-! ## C3: which bounds the validator's SOC-feasibility check uses -/

theorem socFeasAux_hour_ge (E : ℚ) :
    ∀ (l : List PlanRow) (j : ℕ) (f : Finding), f ∈ socFeasAux E j l →
      ∃ h, f.hour = some h ∧ j ≤ h := by
  intro l
  induction l with
  | nil => intro j f hm; simp [socFeasAux] at hm
  | cons cur rest ih =>
      intro j f hm
      cases rest with
      | nil => simp [socFeasAux] at hm
      | cons next rest2 =>
          rw [socFeasAux] at hm
          rcases List.mem_append.1 hm with hm | hm
          · split_ifs at hm <;> simp at hm <;> subst hm <;> exact ⟨j, rfl, le_rfl⟩
          · obtain ⟨h, hh, hj⟩ := ih (j + 1) f hm
            exact ⟨h, hh, by omega⟩

theorem socFeasAux_charge_iff (E : ℚ) :
    ∀ (l : List PlanRow) (j i : ℕ),
      ((⟨some (j + i), FindingKind.SOC_INFEASIBLE_CHARGE, Severity.ERROR⟩ :
          Finding) ∈ socFeasAux E j l) ↔
        ∃ cur next, l[i]? = some cur ∧ l[i + 1]? = some next ∧
          chargeViol E cur next := by
  intro l
  induction l with
  | nil => intro j i; simp [socFeasAux]
  | cons cur rest ih =>
      intro j i
      cases rest with
      | nil => simp [socFeasAux, List.getElem?_cons_succ]
      | cons next rest2 =>
          rcases i with _ | k
          · simp only [Nat.add_zero]
            constructor
            · intro hm
              rw [socFeasAux] at hm
              rcases List.mem_append.1 hm with hm | hm
              · split_ifs at hm with h1 h2
                · exact ⟨cur, next, rfl, by simp, h1⟩
                · simp at hm
                · simp at hm
              · obtain ⟨h, hh, hj⟩ := socFeasAux_hour_ge E (next :: rest2) (j + 1) _ hm
                simp at hh
                omega
            · rintro ⟨cur', next', hc, hn, hviol⟩
              simp only [List.getElem?_cons_zero, List.getElem?_cons_succ,
                Option.some.injEq] at hc hn
              subst hc
              subst hn
              rw [socFeasAux]
              apply List.mem_append_left
              split_ifs with h1 h2
              · simp
              · exact absurd hviol h1
              · exact absurd hviol h1

          · constructor
            · intro hm
              rw [socFeasAux] at hm
              rcases List.mem_append.1 hm with hm | hm
              · split_ifs at hm <;> simp at hm
              · have hrw : j + (k + 1) = j + 1 + k := by omega
                rw [hrw] at hm
                obtain ⟨c', n', h1, h2, h3⟩ := (ih (j + 1) k).1 hm
                exact ⟨c', n', by simpa using h1, by simpa using h2, h3⟩
            · rintro ⟨c', n', h1, h2, h3⟩
              simp only [List.getElem?_cons_succ] at h1 h2
              rw [socFeasAux]
              apply List.mem_append_right
              have hrw : j + (k + 1) = j + 1 + k := by omega
              rw [hrw]
              exact (ih (j + 1) k).2 ⟨c', n', h1, by simpa using h2, h3⟩

theorem socFeasAux_discharge_iff (E : ℚ) :
    ∀ (l : List PlanRow) (j i : ℕ),
      ((⟨some (j + i), FindingKind.SOC_INFEASIBLE_DISCHARGE, Severity.ERROR⟩ :
          Finding) ∈ socFeasAux E j l) ↔
        ∃ cur next, l[i]? = some cur ∧ l[i + 1]? = some next ∧
          ¬ chargeViol E cur next ∧ dischargeViol cur next := by
  intro l
  induction l with
  | nil => intro j i; simp [socFeasAux]
  | cons cur rest ih =>
      intro j i
      cases rest with
      | nil => simp [socFeasAux, List.getElem?_cons_succ]
      | cons next rest2 =>
          rcases i with _ | k
          · simp only [Nat.add_zero]
            constructor
            · intro hm
              rw [socFeasAux] at hm
              rcases List.mem_append.1 hm with hm | hm
              · split_ifs at hm with h1 h2
                · simp at hm
                · exact ⟨cur, next, rfl, by simp, h1, h2⟩
                · simp at hm
              · obtain ⟨h, hh, hj⟩ := socFeasAux_hour_ge E (next :: rest2) (j + 1) _ hm
                simp at hh
                omega
            · rintro ⟨cur', next', hc, hn, hnc, hviol⟩
              simp only [List.getElem?_cons_zero, List.getElem?_cons_succ,
                Option.some.injEq] at hc hn
              subst hc
              subst hn
              rw [socFeasAux]
              apply List.mem_append_left
              split_ifs with h1 h2
              · exact absurd h1 hnc
              · simp
              · exact absurd hviol h2

          · constructor
            · intro hm
              rw [socFeasAux] at hm
              rcases List.mem_append.1 hm with hm | hm
              · split_ifs at hm <;> simp at hm
              · have hrw : j + (k + 1) = j + 1 + k := by omega
                rw [hrw] at hm
                obtain ⟨c', n', h1, h2, h3⟩ := (ih (j + 1) k).1 hm
                exact ⟨c', n', by simpa using h1, by simpa using h2, h3⟩
            · rintro ⟨c', n', h1, h2, h3⟩
              simp only [List.getElem?_cons_succ] at h1 h2
              rw [socFeasAux]
              apply List.mem_append_right
              have hrw : j + (k + 1) = j + 1 + k := by omega
              rw [hrw]
              exact (ih (j + 1) k).2 ⟨c', n', h1, by simpa using h2, h3⟩

/-- C3, amended: the validator's SOC-feasibility check computes its bounds
from the plan row's stored working bracket, not from the profile —
`maxDischarge = min(hsl_i, socBegin_i − socMin_i)` and
`maxCharge = min(|lsl_i|·efficiency, socMax_i − socBegin_i)` — and flags
`SOC_INFEASIBLE_CHARGE` at hour `i` exactly when the stored transition
exceeds `maxCharge` by more than 0.01 MWh, and `SOC_INFEASIBLE_DISCHARGE`
exactly when the charge check did not fire and the transition falls below
`−maxDischarge` by more than 0.01 MWh; both always at `ERROR` severity. -/
theorem C3_validator_uses_row_bounds (s : ValidatorState) (b : BESSParameters)
    (cop : List PlanRow) (i : ℕ) :
    (((⟨some i, FindingKind.SOC_INFEASIBLE_CHARGE, Severity.ERROR⟩ : Finding) ∈
        (validate s b cop).2.errors) ↔
      ∃ cur next, cop[i]? = some cur ∧ cop[i + 1]? = some next ∧
        chargeViol b.efficiency cur next) ∧
    (((⟨some i, FindingKind.SOC_INFEASIBLE_DISCHARGE, Severity.ERROR⟩ : Finding) ∈
        (validate s b cop).2.errors) ↔
      ∃ cur next, cop[i]? = some cur ∧ cop[i + 1]? = some next ∧
        ¬ chargeViol b.efficiency cur next ∧ dischargeViol cur next) := by
  have herr : (validate s b cop).2.errors =
      socFeasAux b.efficiency 0 cop ++ socBoundsErrors b cop := by
    simp [validate, validate_soc_feasibility, validate_data_completeness]
  constructor
  · rw [herr, List.mem_append]
    constructor
    · intro hm
      rcases hm with hm | hm
      · exact (socFeasAux_charge_iff b.efficiency cop 0 i).1 (by simpa using hm)
      · obtain ⟨-, hk | hk⟩ := socBoundsErrors_mem b cop _ hm <;> simp at hk
    · intro hex
      exact Or.inl (by simpa using (socFeasAux_charge_iff b.efficiency cop 0 i).2 hex)
  · rw [herr, List.mem_append]
    constructor
    · intro hm
      rcases hm with hm | hm
      · exact (socFeasAux_discharge_iff b.efficiency cop 0 i).1 (by simpa using hm)
      · obtain ⟨-, hk | hk⟩ := socBoundsErrors_mem b cop _ hm <;> simp at hk
    · intro hex
      exact Or.inl (by simpa using (socFeasAux_discharge_iff b.efficiency cop 0 i).2 hex)

/-- C3, counterexample to the claim as stated: on the two-hour plan
`copC3` over profile `b6`, the stored transition is `4 − 10 = −6`, which is
within the claim's profile-based discharge bound
`min(hsl, socBegin − profile.minSOC) = min(10, 10 − 0) = 10` (plus
tolerance), yet the validator flags `SOC_INFEASIBLE_DISCHARGE` at hour 0,
because it uses the row's stored `soc_min = 5` and gets
`maxDischarge = 5 < 6`. -/
theorem C3_counterexample :
    ((⟨some 0, FindingKind.SOC_INFEASIBLE_DISCHARGE, Severity.ERROR⟩ : Finding) ∈
        (validate initValidator b6 copC3).2.errors) ∧
      ¬ (rowC3b.soc_begin - rowC3a.soc_begin <
          -(specMaxDischarge b6 rowC3a + 1 / 100)) := by
  constructor
  · apply of_decide_eq_true
    with_unfolding_all rfl
  · apply of_decide_eq_true
    with_unfolding_all rfl

/-! ## C2: idempotence of the feasibility repair -/

theorem clipSoc_le (b : BESSParameters) (x : ℚ) : clipSoc b x ≤ b.max_soc :=
  min_le_right _ _

theorem le_clipSoc (b : BESSParameters) (x : ℚ)
    (hmM : b.min_soc ≤ b.max_soc) : b.min_soc ≤ clipSoc b x :=
  le_min (le_max_right _ _) hmM

theorem clipSoc_le_max (b : BESSParameters) (x : ℚ) :
    clipSoc b x ≤ max x b.min_soc :=
  min_le_left _ _

theorem min_le_clipSoc (b : BESSParameters) (x : ℚ) :
    min x b.max_soc ≤ clipSoc b x :=
  min_le_min (le_max_left _ _) le_rfl

theorem clipSoc_eq_self (b : BESSParameters) (x : ℚ)
    (h1 : b.min_soc ≤ x) (h2 : x ≤ b.max_soc) : clipSoc b x = x := by
  rw [clipSoc, max_eq_left h1, min_eq_left h2]

theorem repairStep_le (b : BESSParameters) (hc : 0 ≤ b.hsl)
    (hE : 0 ≤ b.efficiency) (cur next : ℚ) :
    repairStep b cur next ≤ max b.min_soc (cur + |b.lsl| * b.efficiency) := by
  have hcE : (0 : ℚ) ≤ |b.lsl| * b.efficiency := mul_nonneg (abs_nonneg _) hE
  rw [repairStep]
  split_ifs with h1 h2
  · exact le_trans
      (by linarith [min_le_left (|b.lsl| * b.efficiency) (b.max_soc - cur)])
      (le_max_right _ _)
  · rcases le_total b.hsl (cur - b.min_soc) with h | h
    · rw [min_eq_left h]
      exact le_trans (by linarith) (le_max_right _ _)
    · rw [min_eq_right h]
      exact le_trans (by linarith) (le_max_left _ _)
  · push_neg at h1
    exact le_trans
      (by linarith [min_le_left (|b.lsl| * b.efficiency) (b.max_soc - cur)])
      (le_max_right _ _)

theorem repairStep_ge (b : BESSParameters) (hc : 0 ≤ b.hsl)
    (hE : 0 ≤ b.efficiency) (cur next : ℚ) :
    min cur b.max_soc - b.hsl ≤ repairStep b cur next := by
  have hcE : (0 : ℚ) ≤ |b.lsl| * b.efficiency := mul_nonneg (abs_nonneg _) hE
  rw [repairStep]
  split_ifs with h1 h2
  · have hmono : min (0 : ℚ) (b.max_soc - cur) ≤
        min (|b.lsl| * b.efficiency) (b.max_soc - cur) := min_le_min hcE le_rfl
    have h0 : min (0 : ℚ) (b.max_soc - cur) = min cur b.max_soc - cur := by
      rcases le_total cur b.max_soc with h | h
      · rw [min_eq_left (by linarith : (0 : ℚ) ≤ b.max_soc - cur),
          min_eq_left h]
        ring
      · rw [min_eq_right (by linarith : b.max_soc - cur ≤ (0 : ℚ)),
          min_eq_right h]
    linarith
  · have := min_le_left b.hsl (cur - b.min_soc)
    have := min_le_left cur b.max_soc
    linarith
  · push_neg at h2
    have := min_le_left b.hsl (cur - b.min_soc)
    have := min_le_left cur b.max_soc
    linarith

/-- The heart of the idempotence argument: after one clamp-and-clip pass,
every adjacent pair of clipped SOC values already satisfies the feasibility
relation the repair loop enforces, whatever the incoming pair was. -/
theorem clip_repairStep_inv (b : BESSParameters) (hc : 0 ≤ b.hsl)
    (hE : 0 ≤ b.efficiency) (hmM : b.min_soc ≤ b.max_soc) (cur next : ℚ) :
    InvQ b (clipSoc b cur) (clipSoc b (repairStep b cur next)) := by
  have hcE : (0 : ℚ) ≤ |b.lsl| * b.efficiency := mul_nonneg (abs_nonneg _) hE
  have hxM : clipSoc b cur ≤ b.max_soc := clipSoc_le b cur
  have hxm : b.min_soc ≤ clipSoc b cur := le_clipSoc b cur hmM
  have hyM : clipSoc b (repairStep b cur next) ≤ b.max_soc := clipSoc_le b _
  have hym : b.min_soc ≤ clipSoc b (repairStep b cur next) := le_clipSoc b _ hmM
  constructor
  · refine le_min ?_ (by linarith)
    rcases le_total cur b.max_soc with hcur | hcur
    · have hxe : clipSoc b cur = max cur b.min_soc :=
        min_eq_left (max_le hcur hmM)
      have hyle : clipSoc b (repairStep b cur next) ≤
          max (repairStep b cur next) b.min_soc := clipSoc_le_max b _
      have hstep := repairStep_le b hc hE cur next
      rcases le_total cur b.min_soc with hcm | hcm
      · have hxv : clipSoc b cur = b.min_soc := by
          rw [hxe]; exact max_eq_right hcm
        have h2 : max b.min_soc (cur + |b.lsl| * b.efficiency) ≤
            b.min_soc + |b.lsl| * b.efficiency := max_le (by linarith) (by linarith)
        have h3 : max (repairStep b cur next) b.min_soc ≤
            b.min_soc + |b.lsl| * b.efficiency :=
          max_le (le_trans hstep h2) (by linarith)
        linarith [le_trans hyle h3]
      · have hxv : clipSoc b cur = cur := by
          rw [hxe]; exact max_eq_left hcm
        have h2 : max b.min_soc (cur + |b.lsl| * b.efficiency) ≤
            cur + |b.lsl| * b.efficiency := max_le (by linarith) le_rfl
        have h3 : max (repairStep b cur next) b.min_soc ≤
            cur + |b.lsl| * b.efficiency :=
          max_le (le_trans hstep h2) (by linarith)
        linarith [le_trans hyle h3]
    · have hxe : clipSoc b cur = b.max_soc :=
        min_eq_right (le_trans hcur (le_max_left _ _))
      linarith
  · rw [neg_le]
    refine le_min ?_ (by linarith)
    rcases le_total cur b.min_soc with hcm | hcm
    · have hxe : clipSoc b cur = b.min_soc := by
        rw [clipSoc, max_eq_right hcm, min_eq_left hmM]
      linarith
    · have hxe : clipSoc b cur = min cur b.max_soc := by
        rw [clipSoc, max_eq_left hcm]
      have hstep := repairStep_ge b hc hE cur next
      have hyg : min (repairStep b cur next) b.max_soc ≤
          clipSoc b (repairStep b cur next) := min_le_clipSoc b _
      have h3 : min cur b.max_soc - b.hsl ≤ b.max_soc := by
        have := min_le_right cur b.max_soc; linarith
      have h5 : min (min cur b.max_soc - b.hsl) b.max_soc ≤
          min (repairStep b cur next) b.max_soc := min_le_min hstep le_rfl
      rw [min_eq_left h3] at h5
      linarith [le_trans h5 hyg]

theorem repairLoop_clip_chain (b : BESSParameters) (hc : 0 ≤ b.hsl)
    (hE : 0 ≤ b.efficiency) (hmM : b.min_soc ≤ b.max_soc) :
    ∀ (rs : List PlanRow) (cur : PlanRow),
      List.Chain' (fun a c => InvQ b a.soc_begin c.soc_begin)
        ((repairLoop b cur rs).map (clipRow b)) := by
  intro rs
  induction rs with
  | nil => intro cur; simp [repairLoop]
  | cons next rest ih =>
      intro cur
      obtain ⟨t, heq⟩ := repairLoop_cons_eq b cur next rest
      rw [heq, List.map_cons, List.chain'_cons']
      refine ⟨?_, ih _⟩
      intro y hy
      obtain ⟨u, us, heq2, hsoc⟩ := repairLoop_head_soc b rest
        { next with soc_begin := repairStep b cur.soc_begin next.soc_begin }
      rw [heq2, List.map_cons] at hy
      simp only [List.head?_cons, Option.mem_def, Option.some.injEq] at hy
      subst hy
      show InvQ b (clipSoc b cur.soc_begin) (clipSoc b u.soc_begin)
      rw [hsoc]
      exact clip_repairStep_inv b hc hE hmM _ _

theorem repairLoop_id (b : BESSParameters) :
    ∀ (rs : List PlanRow) (cur : PlanRow),
      List.Chain' (fun a c => InvQ b a.soc_begin c.soc_begin) (cur :: rs) →
      repairLoop b cur rs = cur :: rs := by
  intro rs
  induction rs with
  | nil => intro cur h; rfl
  | cons next rest ih =>
      intro cur h
      rw [List.chain'_cons] at h
      obtain ⟨⟨hch, hdis⟩, htail⟩ := h
      rw [repairLoop]
      split_ifs with h1 h2
      · exact absurd h1 (not_lt.2 hch)
      · exact absurd h2 (not_lt.2 hdis)
      · rw [ih next htail]

theorem map_clipRow_id (b : BESSParameters) (l : List PlanRow)
    (h : ∀ r ∈ l, b.min_soc ≤ r.soc_begin ∧ r.soc_begin ≤ b.max_soc) :
    l.map (clipRow b) = l := by
  induction l with
  | nil => rfl
  | cons r rs ih =>
      rw [List.map_cons]
      obtain ⟨h1, h2⟩ := h r (List.mem_cons_self r rs)
      have hcl : clipRow b r = r := by
        rw [clipRow, clipSoc_eq_self b _ h1 h2]
      rw [hcl, ih (fun x hx => h x (List.mem_cons_of_mem r hx))]

theorem ensure_mem_bounds (b : BESSParameters) (hmM : b.min_soc ≤ b.max_soc)
    (rows : List PlanRow) :
    ∀ r ∈ ensure_soc_feasibility b rows,
      b.min_soc ≤ r.soc_begin ∧ r.soc_begin ≤ b.max_soc := by
  intro r hr
  cases rows with
  | nil => simp [ensure_soc_feasibility] at hr
  | cons x xs =>
      obtain ⟨u, -, rfl⟩ := List.mem_map.1 hr
      exact ⟨le_clipSoc b _ hmM, clipSoc_le b _⟩

theorem ensure_chain (b : BESSParameters) (hc : 0 ≤ b.hsl)
    (hE : 0 ≤ b.efficiency) (hmM : b.min_soc ≤ b.max_soc)
    (rows : List PlanRow) :
    List.Chain' (fun a c => InvQ b a.soc_begin c.soc_begin)
      (ensure_soc_feasibility b rows) := by
  cases rows with
  | nil => simp [ensure_soc_feasibility]
  | cons x xs => exact repairLoop_clip_chain b hc hE hmM xs x

/-- C2: the feasibility repair is idempotent — for every profile with
nonnegative capacity and efficiency and an ordered SOC band, repairing an
already-repaired plan changes nothing: neither any `soc_begin` nor any
`target_mw` (the rows are equal outright). In particular, re-running the
repair on an already-feasible sequence produces no change. -/
theorem C2_enforce_idempotent (b : BESSParameters) (hc : 0 ≤ b.capacity_mw)
    (hE : 0 ≤ b.efficiency) (hmM : b.min_soc ≤ b.max_soc)
    (rows : List PlanRow) :
    ensure_soc_feasibility b (ensure_soc_feasibility b rows) =
      ensure_soc_feasibility b rows := by
  have hchain := ensure_chain b hc hE hmM rows
  have hbounds := ensure_mem_bounds b hmM rows
  rcases hout : ensure_soc_feasibility b rows with - | ⟨u, us⟩
  · rfl
  · rw [hout] at hchain hbounds
    show (repairLoop b u us).map (clipRow b) = u :: us
    rw [repairLoop_id b us u hchain]
    exact map_clipRow_id b (u :: us) hbounds

/-- C2 witness: idempotence instantiated on profile `b6` and an infeasible
six-hour SOC sequence. -/
theorem C2_witness :
    ensure_soc_feasibility b6 (ensure_soc_feasibility b6 demoRows) =
      ensure_soc_feasibility b6 demoRows :=
  C2_enforce_idempotent b6 (by norm_num [b6]) (by norm_num [b6])
    (by norm_num [b6]) demoRows

/-! ## C1: the default generator's output does not always pass its validator -/

/-- C1 fails on the code: `b1` is a valid profile (`capacityMW = 1 > 0`,
`minSOC = 18 < 20 = maxSOC`), yet generating the default 168-hour plan
(7 days, start at midnight, no price forecast, no AS commitments) and
validating it with the same profile yields `valid = false`. The repair
clips the default 50% starting SOC up into the `[18, 20]` band, but the
validator re-checks the transitions against the per-row `soc_min`/`soc_max`
working bounds that were stored *before* the repair ran (from the
unrepaired trajectory, whose values stay below 15), so every hour — with a
SOC change of zero — is flagged `SOC_INFEASIBLE_CHARGE` against a negative
stale charge bound. -/
theorem C1_roundtrip_fails :
    0 < b1.capacity_mw ∧ b1.min_soc < b1.max_soc ∧
      (validate initValidator b1 (generate_cop b1 0 7 none none)).2.valid = false ∧
      (validate initValidator b1 (generate_cop b1 0 7 none none)).2.errors.head? =
        some ⟨some 0, FindingKind.SOC_INFEASIBLE_CHARGE, Severity.ERROR⟩ := by
  refine ⟨by norm_num [b1], by norm_num [b1], ?_, ?_⟩
  · with_unfolding_all rfl
  · with_unfolding_all rfl

end COP
